import Mathlib

set_option maxRecDepth 100000

/-!
Verification development for the NetBird environment switcher
(src/python/netbird-switched.py).  The definitions below are a shallow
embedding of the script's pure logic: external command invocations are
modelled by a script of `(exitCode, stdout, stderr)` responses consumed in
order, file writes by the sequence of observable file contents, and the
regular expressions of the source by explicit character-list matchers with
the same backtracking behaviour.
-/

namespace NetbirdSwitch

/-- Lowercase one character (ASCII), as Python str.lower on the inputs considered. -/
def lowerChar (c : Char) : Char := c.toLower

def lowerList (l : List Char) : List Char := l.map lowerChar

def lowerStr (s : String) : String := String.mk (lowerList s.toList)

/-- Boolean test: p is a prefix of l. -/
def listHasPref : List Char → List Char → Bool
  | [], _ => true
  | _ :: _, [] => false
  | a :: as, b :: bs => a == b && listHasPref as bs

/-- Boolean test: p occurs as a contiguous substring of l. -/
def listHasSub (p l : List Char) : Bool :=
  listHasPref p l ||
    match l with
    | [] => false
    | _ :: r => listHasSub p r

/-- Boolean test: pat occurs as a contiguous substring of hay. -/
def strHasSub (hay pat : String) : Bool := listHasSub pat.toList hay.toList

/-- Case-insensitive literal match (pat given lowercase); returns the rest on success. -/
def matchLitCI : List Char → List Char → Option (List Char)
  | [], l => some l
  | _ :: _, [] => none
  | p :: ps, c :: cs => if lowerChar c == p then matchLitCI ps cs else none

def skipWs (l : List Char) : List Char := l.dropWhile Char.isWhitespace

/-- Match  https?://  (case-insensitively) followed by one or more non-space
characters, returning the matched text, as the capture group of the source's
status regex does. -/
def matchUrlAt (l : List Char) : Option String :=
  let k : Nat :=
    if listHasPref "https://".toList (lowerList l) then 8
    else if listHasPref "http://".toList (lowerList l) then 7
    else 0
  if k == 0 then none
  else
    let tl := (l.drop k).takeWhile (fun c => !c.isWhitespace)
    if tl.isEmpty then none else some (String.mk (l.take k ++ tl))

/-- Try the source regex  Management:\s*Connected(?:\s*to)?\s*(https?://\S+)
(IGNORECASE) at this position, with the regex engine's backtracking over the
optional  \s*to  group. -/
def matchMgmtAt (l : List Char) : Option String :=
  match matchLitCI "management:".toList l with
  | none => none
  | some r1 =>
    match matchLitCI "connected".toList (skipWs r1) with
    | none => none
    | some r3 =>
      match matchLitCI "to".toList (skipWs r3) with
      | some r4 =>
        match matchUrlAt (skipWs r4) with
        | some u => some u
        | none => matchUrlAt (skipWs r3)
      | none => matchUrlAt (skipWs r3)

/-- re.search: scan start positions left to right, first match wins. -/
def searchMgmt : List Char → Option String
  | [] => none
  | l@(_ :: r) =>
    match matchMgmtAt l with
    | some u => some u
    | none => searchMgmt r

/-- Embedding of parse_mgmt_url (netbird-switched.py line 57-59). -/
def parse_mgmt_url (text : String) : Option String := searchMgmt text.toList

theorem matchLitCI_pref {p l r : List Char} (h : matchLitCI p l = some r) :
    listHasPref p (lowerList l) = true := by
  induction p generalizing l with
  | nil => rfl
  | cons a as ih =>
    cases l with
    | nil => simp [matchLitCI] at h
    | cons c cs =>
      simp only [matchLitCI] at h
      by_cases hc : lowerChar c == a
      · simp only [lowerList, List.map_cons, listHasPref]
        have := ih (by simpa [hc] using h)
        simp only [lowerList] at this
        simp [this, BEq.symm hc]
      · simp [hc] at h

theorem searchMgmt_none_of_no_phrase :
    ∀ l : List Char,
      listHasSub (String.toList "management:") (lowerList l) = false →
      searchMgmt l = none := by
  intro l
  induction l with
  | nil => intro _; rfl
  | cons c r ih =>
    intro h
    have hsplit := h
    simp only [lowerList, List.map_cons, listHasSub, Bool.or_eq_false_iff] at hsplit
    have hpref : listHasPref (String.toList "management:") (lowerList (c :: r)) = false := by
      simpa [lowerList] using hsplit.1
    have hsub : listHasSub (String.toList "management:") (lowerList r) = false := by
      simpa [lowerList] using hsplit.2
    have hlit : matchLitCI (String.toList "management:") (c :: r) = none := by
      cases hm : matchLitCI (String.toList "management:") (c :: r) with
      | none => rfl
      | some x =>
        rw [matchLitCI_pref hm] at hpref
        simp at hpref
    simp only [searchMgmt, matchMgmtAt]
    rw [show ("management:".toList) = String.toList "management:" from rfl, hlit]
    exact ih hsub

/-- Claim C7: for every status text, extractManagementURL returns the URL of the
first case-insensitive match of the pattern "management: connected [to] url",
and returns none when the phrase is absent; in particular it maps
"Management: Connected to https://a.example:443" to that URL.  The first two
conjuncts evaluate the embedded parser on the spec's example and on a text with
two occurrences (first match wins); the third shows that any text content not
containing "management:" (case-insensitively) yields none. -/
theorem extract_mgmt_url_ok :
    parse_mgmt_url "Management: Connected to https://a.example:443"
        = some "https://a.example:443"
    ∧ parse_mgmt_url
        "Peers: 4\nManagement: Connected to https://first.example\nManagement: Connected to https://second.example"
        = some "https://first.example"
    ∧ ∀ s : String,
        listHasSub (String.toList "management:") (lowerList s.toList) = false →
        parse_mgmt_url s = none := by
  refine ⟨by decide, by decide, ?_⟩
  intro s h
  exact searchMgmt_none_of_no_phrase s.toList h

/-- Witness for C7: a concrete status text without the phrase parses to none. -/
theorem extract_mgmt_url_ok_w : parse_mgmt_url "status: 2 peers up" = none :=
  extract_mgmt_url_ok.2.2 "status: 2 peers up" (by decide)

/-- str.split with a single-character separator (Python semantics: empty
pieces are kept, the empty string yields one empty piece). -/
def splitOnChar (sep : Char) : List Char → List (List Char)
  | [] => [[]]
  | c :: rest =>
    if c == sep then [] :: splitOnChar sep rest
    else
      match splitOnChar sep rest with
      | [] => [[c]]
      | t :: ts => (c :: t) :: ts

def allDigits (l : List Char) : Bool := l.all Char.isDigit

/-- Shape of  \d{1,3}(\.\d{1,3}){3}  fully anchored: four dot-separated groups
of one to three digits. -/
def ipShape (l : List Char) : Bool :=
  let parts := splitOnChar '.' l
  parts.length == 4
    && parts.all (fun p => !p.isEmpty && decide (p.length ≤ 3) && allDigits p)

/-- Embedding of is_ip (netbird-switched.py line 104-105). -/
def is_ip (tok : String) : Bool := ipShape tok.toList

/-- Embedding of is_cidr (netbird-switched.py line 101-102). -/
def is_cidr (tok : String) : Bool :=
  match splitOnChar '/' tok.toList with
  | [a, b] => ipShape a && !b.isEmpty && decide (b.length ≤ 2) && allDigits b
  | _ => false

/-- Python \w for the ASCII inputs considered. -/
def isWordChar (c : Char) : Bool := c.isAlphanum || c == '_'

/-- The tail character class [A-Za-z0-9_.-] of the ID capture group. -/
def idTailChar (c : Char) : Bool := c.isAlphanum || c == '_' || c == '.' || c == '-'

/-- Word boundary \b between the last captured character and the next one
(none at end of text). -/
def boundaryAfter (last : Char) (next : Option Char) : Bool :=
  isWordChar last != (match next with | some d => isWordChar d | none => false)

/-- Backtracking of the greedy  [A-Za-z0-9_.-]+  until the trailing \b holds:
the input is the captured run reversed; next is the character after it. -/
def trimRev : List Char → Option Char → Option (List Char)
  | [], _ => none
  | c :: rest, next =>
    if boundaryAfter c next then some (c :: rest) else trimRev rest (some c)

/-- Try  \bID:\s*([A-Za-z0-9][A-Za-z0-9_.-]+)\b  at this position; prev is the
character before the position (none at start of line). -/
def matchIdAt (prev : Option Char) (l : List Char) : Option String :=
  if (match prev with | some c => isWordChar c | none => false) then none
  else
    match l with
    | 'I' :: 'D' :: ':' :: rest =>
      match skipWs rest with
      | [] => none
      | c0 :: r3 =>
        if c0.isAlphanum then
          let tl := r3.takeWhile idTailChar
          if tl.isEmpty then none
          else
            match trimRev (c0 :: tl).reverse ((r3.drop tl.length).head?) with
            | some kept =>
              if decide (2 ≤ kept.length) then some (String.mk kept.reverse) else none
            | none => none
        else none
    | _ => none

/-- re.search of the ID key-value pattern within one line: first match wins. -/
def searchIdGo : Option Char → List Char → Option String
  | _, [] => none
  | prev, l@(c :: r) =>
    match matchIdAt prev l with
    | some tok => some tok
    | none => searchIdGo (some c) r

/-- Key-value tier (netbird-switched.py line 107-113): each line contributes
its first "ID: value" match unless the value looks like an IP or CIDR. -/
def tier1Ids (lines : List String) : List String :=
  lines.filterMap (fun ln =>
    match searchIdGo none ln.toList with
    | some tok =>
      if !tok.isEmpty && !is_ip tok && !is_cidr tok then some tok else none
    | none => none)

/-- str.strip for the whitespace characters considered. -/
def stripList (l : List Char) : List Char :=
  ((l.dropWhile Char.isWhitespace).reverse.dropWhile Char.isWhitespace).reverse

def stripS (s : String) : String := String.mk (stripList s.toList)

/-- re.split(r"\s\x7b2,\x7d", ...): split at each maximal run of two or more
whitespace characters (fuel-driven so that it evaluates; fuel is the length). -/
def splitWsGo : Nat → List Char → List Char → List (List Char)
  | _, [], acc => [acc.reverse]
  | 0, l, acc => [acc.reverse ++ l]
  | fuel + 1, c :: rest, acc =>
    if c.isWhitespace then
      match rest with
      | [] => [(c :: acc).reverse]
      | c2 :: rest2 =>
        if c2.isWhitespace then
          acc.reverse :: splitWsGo fuel (rest2.dropWhile Char.isWhitespace) []
        else splitWsGo fuel rest2 (c2 :: c :: acc)
    else splitWsGo fuel rest (c :: acc)

/-- Columns of a (pre-stripped) table line: drop the leading run of non-word
characters (re.sub of a leading [^\w]+), then split on runs of two or more
spaces (netbird-switched.py line 123 and 133). -/
def splitColsStr (s : String) : List String :=
  let cleaned := s.toList.dropWhile (fun c => !isWordChar c)
  (splitWsGo (cleaned.length + 1) cleaned []).map String.mk

/-- Data rows of the table tier (netbird-switched.py line 129-137): blank lines
are skipped (continue, not break); each other line contributes the token at
the header's ID column index, subject to the same exclusions. -/
def dataRows (j : Nat) : List String → List String
  | [] => []
  | raw :: rest =>
    let ds := stripS raw
    if ds.isEmpty then dataRows j rest
    else
      let dcols := splitColsStr ds
      if j < dcols.length then
        let tok := stripS (dcols.getD j "")
        if !tok.isEmpty && lowerStr tok != "id" && !is_ip tok && !is_cidr tok then
          tok :: dataRows j rest
        else dataRows j rest
      else dataRows j rest

/-- Table tier (netbird-switched.py line 115-138): find the first non-blank
line whose columns include one literally equal to "id" (case-insensitively),
then collect data-row tokens at that column index. -/
def tier2Ids : List String → List String
  | [] => []
  | raw :: rest =>
    let s := stripS raw
    if s.isEmpty then tier2Ids rest
    else
      match List.findIdx? (fun c => lowerStr (stripS c) == "id") (splitColsStr s) with
      | some j => dataRows j rest
      | none => tier2Ids rest

/-- Order-preserving de-duplication (netbird-switched.py line 140-145). -/
def dedupAux : List String → List String → List String
  | [], _ => []
  | x :: xs, seen =>
    if seen.contains x then dedupAux xs seen else x :: dedupAux xs (x :: seen)

def dedup (l : List String) : List String := dedupAux l []

/-- str.splitlines for texts whose line terminator is the newline character. -/
def splitLines (s : String) : List String :=
  if s.isEmpty then []
  else
    let parts := splitOnChar '\n' s.toList
    let parts := if s.toList.getLast? == some '\n' then parts.dropLast else parts
    parts.map String.mk

/-- The identifier-extraction logic of networks_select_all (lines 99-145):
key-value tier first, table tier only when it yields nothing, then de-dup. -/
def extract_ids (text : String) : List String :=
  let lines := splitLines text
  let t1 := tier1Ids lines
  dedup (if t1.isEmpty then tier2Ids lines else t1)

/-- Result of a synchronous agent invocation: (exitCode, stdout, stderr). -/
abbrev CmdResult := Nat × String × String

/-- Execution context for run_cmd: a script of responses consumed in order,
and the accumulated list of issued command lines. -/
structure Exec where
  script : List CmdResult
  issued : List String
deriving DecidableEq

/-- Embedding of run_cmd: consume the next scripted response (an exhausted
script behaves like the source's exception path, exit code 255). -/
def callCmd (cmd : String) (e : Exec) : CmdResult × Exec :=
  match e.script with
  | [] => ((255, "", ""), ⟨[], e.issued ++ [cmd]⟩)
  | r :: rs => (r, ⟨rs, e.issued ++ [cmd]⟩)

def joinSep (sep : String) : List String → String
  | [] => ""
  | [x] => x
  | x :: xs => x ++ sep ++ joinSep sep xs

/-- The batched select command line, each identifier quoted (line 153). -/
def selCmd (chunk : List String) : String :=
  "netbird networks select " ++ joinSep " " (chunk.map (fun x => "\"" ++ x ++ "\""))

/-- The chunking of  range(0, len(ids), 15)  (line 151-152): consecutive
chunks of at most 15 identifiers, in order. -/
def chunksAux : List String → List String → Nat → List (List String)
  | [], acc, _ => if acc.isEmpty then [] else [acc.reverse]
  | x :: xs, acc, 0 => acc.reverse :: chunksAux xs [x] 14
  | x :: xs, acc, k + 1 => chunksAux xs (x :: acc) k

def chunks15 (l : List String) : List (List String) := chunksAux l [] 15

/-- The select loop (line 151-156): run each batch, stop at the first nonzero
exit code returning that command's tuple, none when all batches succeed. -/
def selChunks : List (List String) → Exec → Option (String × Nat × String × String) × Exec
  | [], e => (none, e)
  | c :: cs, e =>
    let (r, e1) := callCmd (selCmd c) e
    if r.1 != 0 then (some (selCmd c, r.1, r.2.1, r.2.2), e1)
    else selChunks cs e1

/-- Embedding of networks_select_all (netbird-switched.py line 89-158). -/
def networks_select_all (e : Exec) : (String × Nat × String × String) × Exec :=
  let (r, e1) := callCmd "netbird networks list" e
  if r.1 != 0 then (("netbird networks list", r.1, r.2.1, r.2.2), e1)
  else
    let ids := extract_ids r.2.1
    if ids.isEmpty then
      (("parse networks list (IDs)", 1, r.2.1,
        "No network IDs parsed from \x27netbird networks list\x27"), e1)
    else
      match selChunks (chunks15 ids) e1 with
      | (some f, e2) => (f, e2)
      | (none, e2) =>
        (("netbird networks select <ids>", 0, "Selected: " ++ joinSep ", " ids, ""), e2)

/-- Embedding of looks_like_help (line 163-164). -/
def looks_like_help (s : String) : Bool :=
  !s.isEmpty && strHasSub s "Usage:" && strHasSub s "netbird networks"

/-- Embedding of networks_refresh (line 160-168): help-text misfires on a
zero exit are cleaned to empty output. -/
def networks_refresh (e : Exec) : CmdResult × Exec :=
  let (r, e1) := callCmd "netbird networks refresh" e
  if r.1 == 0 && looks_like_help r.2.1 then ((r.1, "", r.2.2), e1) else (r, e1)

/-- Embedding of the worker body of MainWindow.on_refresh_networks
(line 503-524): phase 1 (select all) runs, its outcome is logged, and then
phase 2 (refresh) is invoked unconditionally.  Returns the selection result,
the refresh result and the final execution context. -/
def on_refresh_networks (e : Exec) :
    (String × Nat × String × String) × CmdResult × Exec :=
  let (sel, e1) := networks_select_all e
  let (ref, e2) := networks_refresh e1
  (sel, ref, e2)

/-- A listing whose table has a data row, then a blank line, then another row. -/
def c4Text : String := "Name  ID  Status\nrowA  netA  up\n\nrowB  netB  up"

/-- Claim C4 counterexample: the claim says data rows contribute tokens only
until the first blank line; on c4Text the row after the blank line still
contributes its identifier (the source does continue, not break, on blank
data lines), so the parse yields both identifiers, not just the first. -/
theorem table_blank_line_cex :
    extract_ids c4Text = ["netA", "netB"] ∧ extract_ids c4Text ≠ ["netA"] := by
  constructor
  · rfl
  · decide

/-- Claim C4 amended: after the header line with an ID column is located,
every following non-blank line contributes the token at that column index up
to the end of the text; blank lines are skipped rather than ending the table,
so rows after an intervening blank line still contribute identifiers.  The
first conjunct is the general skipping law for the data-row scan; the second
evaluates the full parser on the blank-line listing. -/
theorem table_blank_skipped_amended :
    (∀ (j : Nat) (l1 l2 : List String),
        dataRows j (l1 ++ "" :: l2) = dataRows j l1 ++ dataRows j l2)
    ∧ extract_ids c4Text = ["netA", "netB"] := by
  constructor
  · intro j l1 l2
    induction l1 with
    | nil =>
      have h : (stripS "").isEmpty = true := rfl
      simp [dataRows, h]
    | cons raw rest ih =>
      simp only [List.cons_append, dataRows]
      split
      · exact ih
      · split
        · split
          · simp [ih]
          · exact ih
        · exact ih
  · rfl

theorem callCmd_issued (cmd : String) (e : Exec) :
    (callCmd cmd e).2.issued = e.issued ++ [cmd] := by
  unfold callCmd
  cases e.script <;> rfl

theorem networks_refresh_issued (e : Exec) :
    (networks_refresh e).2.issued = e.issued ++ ["netbird networks refresh"] := by
  unfold networks_refresh
  rcases hc : callCmd "netbird networks refresh" e with ⟨r, e1⟩
  have h1 : e1.issued = e.issued ++ ["netbird networks refresh"] := by
    have := callCmd_issued "netbird networks refresh" e
    rw [hc] at this
    exact this
  simp only [hc]
  split <;> simpa using h1

/-- Claim C1 counterexample: with a listing that yields no identifiers the
selection phase fails (exit code 1 from the parse step), yet the coordinator
still issues the refresh command, so refresh is not conditional on the
selection phase succeeding. -/
theorem refresh_issued_after_failed_select_cex :
    (on_refresh_networks ⟨[(0, "", ""), (0, "", "")], []⟩).1.2.1 = 1
    ∧ "netbird networks refresh"
        ∈ (on_refresh_networks ⟨[(0, "", ""), (0, "", "")], []⟩).2.2.issued := by
  constructor
  · rfl
  · decide

/-- Claim C1 amended: when parsing yields no identifiers the selection phase
reports failure without issuing any select command, but the coordinator does
not stop: the refresh command is issued unconditionally as the last command of
every refresh-networks run, whatever the outcome of the selection phase. -/
theorem refresh_always_issued_amended :
    (∀ e : Exec,
        (on_refresh_networks e).2.2.issued.getLast? = some "netbird networks refresh")
    ∧ (on_refresh_networks ⟨[(0, "", ""), (0, "", "")], []⟩).1.2.1 = 1
    ∧ (on_refresh_networks ⟨[(0, "", ""), (0, "", "")], []⟩).2.2.issued
        = ["netbird networks list", "netbird networks refresh"] := by
  refine ⟨?_, rfl, rfl⟩
  intro e
  unfold on_refresh_networks
  rcases hs : networks_select_all e with ⟨sel, e1⟩
  rcases hr : networks_refresh e1 with ⟨ref, e2⟩
  have h2 : e2.issued = e1.issued ++ ["netbird networks refresh"] := by
    have := networks_refresh_issued e1
    rw [hr] at this
    exact this
  simp only [hs, hr, h2]
  exact List.getLast?_concat _

def digitCharOf (d : Nat) : Char := Char.ofNat (48 + d)

/-- nbXY, a two-digit network identifier used in the 32-identifier scenario. -/
def id2 (i : Nat) : String := String.mk ['n', 'b', digitCharOf (i / 10), digitCharOf (i % 10)]

def ids32 : List String := (List.range 32).map id2

/-- A key-value listing that parses to the 32 identifiers nb00..nb31. -/
def kvText32 : String := joinSep "\n" (ids32.map (fun s => "ID: " ++ s))

/-- Listing succeeds with 32 identifiers, first select batch succeeds, second
select batch fails with exit code 1. -/
def failScript : List CmdResult := [(0, kvText32, ""), (0, "", ""), (1, "boom", "berr")]

/-- All batches succeed for the 32-identifier listing. -/
def okScript : List CmdResult := [(0, kvText32, ""), (0, "", ""), (0, "", ""), (0, "", "")]

theorem chunksAux_join (l : List String) :
    ∀ (acc : List String) (k : Nat),
      List.flatten (chunksAux l acc k) = acc.reverse ++ l := by
  induction l with
  | nil =>
    intro acc k
    by_cases h : acc.isEmpty
    · simp [chunksAux, h, List.isEmpty_iff.mp h]
    · simp [chunksAux, h]
  | cons x xs ih =>
    intro acc k
    cases k with
    | zero => simp [chunksAux, ih]
    | succ k => simp [chunksAux, ih]

theorem chunksAux_length (l : List String) :
    ∀ (acc : List String) (k : Nat), acc.length + k = 15 →
      (chunksAux l acc k).length = (acc.length + l.length + 14) / 15 := by
  induction l with
  | nil =>
    intro acc k hk
    by_cases h : acc.isEmpty
    · have : acc.length = 0 := by simpa [List.isEmpty_iff] using h
      simp [chunksAux, h, this]
    · have h0 : acc.length ≠ 0 := by
        intro hz
        exact h (by simpa [List.isEmpty_iff, List.length_eq_zero] using hz)
      have : acc.length ≤ 15 := by omega
      simp only [chunksAux, h, if_false, Bool.false_eq_true, List.length_cons,
        List.length_nil, List.length_append]
      omega
  | cons x xs ih =>
    intro acc k hk
    cases k with
    | zero =>
      have ha : acc.length = 15 := by omega
      have := ih [x] 14 (by simp)
      simp only [chunksAux, List.length_cons, this]
      simp only [List.length_cons, List.length_nil, List.length_cons] at this ⊢
      omega
    | succ k =>
      have := ih (x :: acc) k (by simp; omega)
      simp only [chunksAux, this]
      simp only [List.length_cons] at this ⊢
      omega

theorem chunksAux_le15 (l : List String) :
    ∀ (acc : List String) (k : Nat), acc.length + k = 15 →
      ∀ c ∈ chunksAux l acc k, c.length ≤ 15 := by
  induction l with
  | nil =>
    intro acc k hk c hc
    by_cases h : acc.isEmpty
    · simp [chunksAux, h] at hc
    · simp only [chunksAux, h, if_false, Bool.false_eq_true, List.mem_singleton] at hc
      subst hc
      simp
      omega
  | cons x xs ih =>
    intro acc k hk c hc
    cases k with
    | zero =>
      simp only [chunksAux, List.mem_cons] at hc
      rcases hc with hc | hc
      · subst hc
        simp
        omega
      · exact ih [x] 14 (by simp) c hc
    | succ k =>
      simp only [chunksAux] at hc
      exact ih (x :: acc) k (by simp; omega) c hc

/-- Claim C5 counterexample: in the forced-failure scenario (32 identifiers,
second batch fails) the reported result is exactly the failing command's
tuple; none of its four fields mentions the successfully applied prefix (the
identifier nb00 of the first batch appears nowhere in it, though the first
batch was issued and succeeded), so the successful prefix is not reported. -/
theorem batch_prefix_not_reported_cex :
    (networks_select_all ⟨failScript, []⟩).1.2.1 = 1
    ∧ strHasSub (networks_select_all ⟨failScript, []⟩).1.1 "nb00" = false
    ∧ strHasSub (networks_select_all ⟨failScript, []⟩).1.2.2.1 "nb00" = false
    ∧ strHasSub (networks_select_all ⟨failScript, []⟩).1.2.2.2 "nb00" = false
    ∧ ∃ c ∈ (networks_select_all ⟨failScript, []⟩).2.issued, strHasSub c "nb00" = true := by
  refine ⟨rfl, by decide, by decide, by decide, ?_⟩
  decide

/-- Claim C5 amended: batch selection issues exactly ceil(n/15) select
commands over consecutive chunks of at most 15 identifiers in discovered
order; on the first failing batch it stops immediately and returns that
batch's command line (whose text names that batch's identifiers) together
with its exit code and output, but the successful prefix of identifiers
already applied is not part of the reported result.  Conjuncts: chunking is a
partition in order; chunk count is ceil(n/15); chunks are at most 15 long;
a failing batch stops the loop at once with that batch's tuple; concretely,
32 identifiers give batches of 15, 15 and 2, all-success issues 4 commands
(list plus 3 selects) and the forced second-batch failure issues 3 (list plus
2 selects) with the failing batch's exit code reported. -/
theorem batch_select_amended :
    (∀ l : List String, List.flatten (chunks15 l) = l)
    ∧ (∀ l : List String, (chunks15 l).length = (l.length + 14) / 15)
    ∧ (∀ l : List String, ∀ c ∈ chunks15 l, c.length ≤ 15)
    ∧ (∀ (c : List String) (cs : List (List String)) (e : Exec) (r : CmdResult) (e1 : Exec),
        callCmd (selCmd c) e = (r, e1) → r.1 ≠ 0 →
        selChunks (c :: cs) e = (some (selCmd c, r.1, r.2.1, r.2.2), e1))
    ∧ ((chunks15 ids32).map List.length = [15, 15, 2]
       ∧ (networks_select_all ⟨okScript, []⟩).1.2.1 = 0
       ∧ (networks_select_all ⟨okScript, []⟩).2.issued.length = 4
       ∧ (networks_select_all ⟨failScript, []⟩).2.issued.length = 3
       ∧ (networks_select_all ⟨failScript, []⟩).1.2.1 = 1) := by
  refine ⟨?_, ?_, ?_, ?_, by decide, rfl, by decide, by decide, rfl⟩
  · intro l
    simpa using chunksAux_join l [] 15
  · intro l
    simpa using chunksAux_length l [] 15 (by simp)
  · intro l c hc
    exact chunksAux_le15 l [] 15 (by simp) c hc
  · intro c cs e r e1 hc hr
    simp only [selChunks, hc]
    have : (r.1 != 0) = true := by simpa using hr
    simp [this]

/-- Witness for C5: stop-at-first-failure applied at a concrete batch. -/
theorem batch_select_amended_w :
    selChunks [["x"]] ⟨[(1, "o", "er")], []⟩
      = (some ("netbird networks select \"x\"", 1, "o", "er"),
         ⟨[], ["netbird networks select \"x\""]⟩) :=
  batch_select_amended.2.2.2.1 ["x"] [] ⟨[(1, "o", "er")], []⟩ (1, "o", "er")
    ⟨[], ["netbird networks select \"x\""]⟩ rfl (by decide)

/-- Head of a status-response script; an exhausted script behaves like the
source's exception path in run_cmd (exit code 255, empty output). -/
def scriptHead : List CmdResult → CmdResult
  | [] => (255, "", "")
  | r :: _ => r

/-- The post-teardown poll loop of _ensure_down_quick (line 439-443): poll
status, stop at the first response that no longer reports a connection
(nonzero exit or no management URL), up to the fuel ceiling; returns the
number of polls performed.  The source bounds the loop by max_wait = 2.0 s
with step = 0.2 s, i.e. at most 10 polls. -/
def pollUntilDown : Nat → List CmdResult → Nat
  | 0, _ => 0
  | fuel + 1, s =>
    let r := scriptHead s
    if r.1 != 0 || (parse_mgmt_url r.2.1).isNone then 1
    else 1 + pollUntilDown fuel s.tail

/-- Embedding of MainWindow._ensure_down_quick (line 435-443) over the script
of successive status responses: returns whether the teardown command was
issued and how many post-teardown status polls ran.  The teardown is skipped
only when the first status query exits 0 with no management URL in its
output. -/
def ensure_down_quick (script : List CmdResult) : Bool × Nat :=
  let r0 := scriptHead script
  if r0.1 == 0 && (parse_mgmt_url r0.2.1).isNone then (false, 0)
  else (true, pollUntilDown 10 script.tail)

theorem pollUntilDown_le (fuel : Nat) : ∀ s : List CmdResult, pollUntilDown fuel s ≤ fuel := by
  induction fuel with
  | zero => intro s; simp [pollUntilDown]
  | succ n ih =>
    intro s
    simp only [pollUntilDown]
    split
    · omega
    · have := ih s.tail
      omega

/-- Claim C6 counterexample: when the status query itself fails (exit code 1,
empty output) no management URL is detected in its output, yet the teardown
command is issued — teardown is not conditional on a URL being detected. -/
theorem teardown_on_status_failure_cex :
    (ensure_down_quick [(1, "", "")]).1 = true ∧ parse_mgmt_url "" = none := by
  exact ⟨rfl, rfl⟩

/-- Claim C6 amended: the teardown command is skipped only when the status
query succeeds (exit code 0) and no management URL is detected in its output;
it is issued both when a URL is detected and when the status query fails.
After issuing it, status is re-polled at the fixed short interval, stopping at
the first poll that no longer reports a connection, with at most 10 polls
(the 2.0 s / 0.2 s ceiling). -/
theorem teardown_condition_amended :
    ∀ script : List CmdResult,
      (ensure_down_quick script).1
        = !((scriptHead script).1 == 0 && (parse_mgmt_url (scriptHead script).2.1).isNone)
      ∧ (ensure_down_quick script).2 ≤ 10 := by
  intro script
  unfold ensure_down_quick
  by_cases h : ((scriptHead script).1 == 0 && (parse_mgmt_url (scriptHead script).2.1).isNone) = true
  · simp [h]
  · have h2 : ((scriptHead script).1 == 0 && (parse_mgmt_url (scriptHead script).2.1).isNone) = false :=
      Bool.eq_false_iff.mpr h
    simp [h2, pollUntilDown_le]

/-- The confirmation poll of the connect worker (line 584-590): up to fuel
one-second polls; a poll whose status command exits 0 and whose output parses
to a management URL confirms with that URL; otherwise the loop continues on
the remaining script. -/
def pollConfirm : Nat → List CmdResult → Option String
  | 0, _ => none
  | fuel + 1, s =>
    let r := scriptHead s
    if r.1 == 0 then
      match parse_mgmt_url r.2.1 with
      | some u => some u
      | none => pollConfirm fuel s.tail
    else pollConfirm fuel s.tail

/-- Embedding of the worker body of MainWindow.on_connect (line 554-609),
restricted to the set_active emission it produces.  requested is the
environment name captured when the attempt began; selectedAtConfirm is the
value of the mutable selection field at the moment the emission executes
(selection cards stay enabled while the worker runs, so it may differ from
requested).  The source emits set_active(self.selected_name) on confirmation
— the current selection, not the captured name — and emits nothing when the
launch fails or the 180-poll window elapses unconfirmed. -/
def on_connect_work (_requested _url : String) (procOk : Bool)
    (script : List CmdResult) (selectedAtConfirm : Option String) :
    Option (Option String) :=
  if !procOk then none
  else
    match pollConfirm 180 script with
    | some _ => some selectedAtConfirm
    | none => none

/-- Claim C3 counterexample: a connect attempt requested for environment A is
confirmed on the first poll, but the user moved the selection to B during the
poll; the emitted active-environment is B, not the requested A. -/
theorem connect_active_uses_current_selection_cex :
    (pollConfirm 180 [(0, "Management: Connected to https://a.example:443", "")]).isSome = true
    ∧ on_connect_work "A" "https://a.example:443" true
        [(0, "Management: Connected to https://a.example:443", "")] (some "B")
      = some (some "B")
    ∧ on_connect_work "A" "https://a.example:443" true
        [(0, "Management: Connected to https://a.example:443", "")] (some "B")
      ≠ some (some "A") := by
  refine ⟨rfl, rfl, by decide⟩

/-- Claim C3 amended: when a connect attempt is confirmed within the 180-poll
window, the active-environment marker is set to the selection current at the
moment of confirmation, not to the environment requested when the attempt
began; the two coincide exactly when the selection is unchanged during the
poll. -/
theorem connect_active_selection_amended :
    ∀ (req u : String) (script : List CmdResult) (sel : Option String),
      (pollConfirm 180 script).isSome = true →
      on_connect_work req u true script sel = some sel
      ∧ (sel = some req → on_connect_work req u true script sel = some (some req)) := by
  intro req u script sel h
  unfold on_connect_work
  cases hp : pollConfirm 180 script with
  | none => rw [hp] at h; simp at h
  | some x =>
    constructor
    · simp
    · intro hs
      simp [hs]

/-- Witness for C3 amended: with the selection unchanged the requested
environment is the one marked active. -/
theorem connect_active_selection_amended_w :
    on_connect_work "A" "https://a.example" true
        [(0, "Management: Connected to https://a.example", "")] (some "A")
      = some (some "A") :=
  (connect_active_selection_amended "A" "https://a.example"
    [(0, "Management: Connected to https://a.example", "")] (some "A") (by decide)).2 rfl

/-- An environment record of envs.json: name and management endpoint. -/
structure EnvRec where
  name : String
  management_url : String
deriving DecidableEq

/-- JSON string literal for names and URLs without characters needing escapes. -/
def jsonStr (s : String) : String := "\"" ++ s ++ "\""

/-- One record as json.dumps(..., indent=2) renders it inside the top array. -/
def dumpRec (r : EnvRec) : String :=
  "\x7b\n    \"name\": " ++ jsonStr r.name ++ ",\n    \"management_url\": "
    ++ jsonStr r.management_url ++ "\n  \x7d"

/-- json.dumps(envs, indent=2) for the full ordered sequence. -/
def dumpsEnvs : List EnvRec → String
  | [] => "[]"
  | rs => "[\n  " ++ joinSep ",\n  " (rs.map dumpRec) ++ "\n]"

/-- Embedding of save_envs (line 183-184): Path.write_text opens the backing
file for writing — truncating it — and then writes the serialized text.  The
value is the sequence of observable file contents: the old content before the
call, the empty content after the truncating open, and the new serialization
after the write completes. -/
def save_envs (old : String) (envs : List EnvRec) : List String :=
  [old, "", dumpsEnvs envs]

/-- Claim C2 counterexample: saving one record over a previously valid store
passes through an observable state (the truncated, empty file) that is
neither the old nor the new serialization, so the write is not all-or-nothing
from the caller's perspective — there is no temporary-file-and-swap in
save_envs. -/
theorem save_not_atomic_cex :
    "" ∈ save_envs "[]" [⟨"A", "https://a.example"⟩]
    ∧ ("" == "[]") = false
    ∧ ("" == dumpsEnvs [⟨"A", "https://a.example"⟩]) = false := by
  refine ⟨by decide, rfl, by decide⟩

/-- Claim C2 amended: save serializes the full ordered sequence and the final
observable content is that full serialization, but the store is written with
a single in-place truncating write: an interruption between the truncation
and the write exposes an empty (truncated) file, which for a non-empty store
is neither the old nor the new content, so the write is not atomic and no
temporary-location-and-swap is performed. -/
theorem save_direct_write_amended :
    ∀ (old : String) (envs : List EnvRec),
      (save_envs old envs).getLast? = some (dumpsEnvs envs)
      ∧ "" ∈ save_envs old envs := by
  intro old envs
  exact ⟨rfl, by simp [save_envs]⟩

/-- The URL validation of on_add (line 459): re.match of ^https?://. -/
def urlOk (url : String) : Bool :=
  listHasPref "http://".toList url.toList || listHasPref "https://".toList url.toList

inductive AddOutcome
  | invalid
  | duplicateName
  | saved
deriving DecidableEq

/-- In-place endpoint replacement on the first record whose lowercased name
matches (line 461-465): the record keeps its original name casing and its
position. -/
def replaceFirstCI (nameLower url : String) : List EnvRec → List EnvRec
  | [] => []
  | e :: es =>
    if lowerStr e.name == nameLower then ⟨e.name, url⟩ :: es
    else e :: replaceFirstCI nameLower url es

/-- Embedding of MainWindow.on_add (line 455-472) on the in-memory registry:
confirm is the user's answer to the overwrite question for an existing name.
Invalid input leaves the registry unchanged; a duplicate name without
confirmation leaves it unchanged; with confirmation only the first
case-insensitively matching record's endpoint is replaced in place; a fresh
name is appended. -/
def on_add (envs : List EnvRec) (name url : String) (confirm : Bool) :
    List EnvRec × AddOutcome :=
  if name.isEmpty || url.isEmpty || !urlOk url then (envs, .invalid)
  else if envs.any (fun e => lowerStr e.name == lowerStr name) then
    if confirm then (replaceFirstCI (lowerStr name) url envs, .saved)
    else (envs, .duplicateName)
  else (envs ++ [⟨name, url⟩], .saved)

theorem replaceFirstCI_append (nl url : String) :
    ∀ (l1 : List EnvRec) (e0 : EnvRec) (l2 : List EnvRec),
      (∀ x ∈ l1, lowerStr x.name ≠ nl) → lowerStr e0.name = nl →
      replaceFirstCI nl url (l1 ++ e0 :: l2) = l1 ++ EnvRec.mk e0.name url :: l2 := by
  intro l1
  induction l1 with
  | nil =>
    intro e0 l2 _ hm
    simp [replaceFirstCI, hm]
  | cons x xs ih =>
    intro e0 l2 hpre hm
    have hx : (lowerStr x.name == nl) = false := by
      simpa using hpre x (List.mem_cons_self x xs)
    simp only [List.cons_append, replaceFirstCI, hx, Bool.false_eq_true, if_false,
      List.cons.injEq, true_and]
    exact ih e0 l2 (fun y hy => hpre y (List.mem_cons_of_mem x hy)) hm

/-- Claim C8: for a registry in which name already exists case-insensitively
(first matching record e0, preceded by non-matching records l1), add without
overwrite confirmation leaves the registry unchanged and reports
DuplicateName; add with confirmation replaces only the existing record's
endpoint in place, preserving the record's original name casing and its
position in the sequence. -/
theorem add_duplicate_ok
    (l1 l2 : List EnvRec) (e0 : EnvRec) (name url : String)
    (hname : name.isEmpty = false) (hue : url.isEmpty = false) (hurl : urlOk url = true)
    (hpre : ∀ x ∈ l1, lowerStr x.name ≠ lowerStr name)
    (hmatch : lowerStr e0.name = lowerStr name) :
    on_add (l1 ++ e0 :: l2) name url false = (l1 ++ e0 :: l2, AddOutcome.duplicateName)
    ∧ on_add (l1 ++ e0 :: l2) name url true
        = (l1 ++ EnvRec.mk e0.name url :: l2, AddOutcome.saved) := by
  have hany : ((l1 ++ e0 :: l2).any (fun e => lowerStr e.name == lowerStr name)) = true := by
    simp only [List.any_append, List.any_cons, Bool.or_eq_true]
    exact Or.inr (Or.inl (by simp [hmatch]))
  constructor
  · simp [on_add, hname, hue, hurl, hany]
  · simp only [on_add, hname, hue, hurl, hany, Bool.false_eq_true, if_false,
      Bool.or_self, Bool.not_true, if_true]
    simp [replaceFirstCI_append (lowerStr name) url l1 e0 l2 hpre hmatch]

/-- Witness for C8: a duplicate under different casing is rejected without
confirmation and overwritten in place with confirmation, keeping the stored
casing "Env" and its position after the unrelated record. -/
theorem add_duplicate_ok_w :
    on_add [⟨"X", "https://x"⟩, ⟨"Env", "https://old"⟩] "ENV" "https://new" false
      = ([⟨"X", "https://x"⟩, ⟨"Env", "https://old"⟩], AddOutcome.duplicateName)
    ∧ on_add [⟨"X", "https://x"⟩, ⟨"Env", "https://old"⟩] "ENV" "https://new" true
      = ([⟨"X", "https://x"⟩, ⟨"Env", "https://new"⟩], AddOutcome.saved) :=
  add_duplicate_ok [⟨"X", "https://x"⟩] [] ⟨"Env", "https://old"⟩ "ENV" "https://new"
    rfl rfl (by decide) (by decide) (by decide)

/-- The window state the remove handler touches: the in-memory registry and
the selection and active-environment markers. -/
structure AppState where
  envs : List EnvRec
  selected : Option String
  active : Option String
deriving DecidableEq

/-- Embedding of MainWindow.on_remove (line 489-500): confirmed is the user's
answer to the deletion question, saveOk tells whether save_envs raised.  The
in-memory list is filtered (exact name match) before the save is attempted;
only when the save succeeds are the active marker (if it equals the removed
name) and the selection marker cleared — the exception path leaves both
markers untouched although the list was already filtered. -/
def on_remove (s : AppState) (confirmed saveOk : Bool) : AppState :=
  match s.selected with
  | none => s
  | some name =>
    if !confirmed then s
    else
      let envs2 := s.envs.filter (fun e => e.name != name)
      if saveOk then
        ⟨envs2, none, if s.active == some name then none else s.active⟩
      else
        ⟨envs2, s.selected, s.active⟩

/-- Claim C10 counterexample: removing the selected environment A (which is
also the active one) while the save raises leaves the record gone from the
in-memory registry yet both markers still naming A — the active marker then
names an absent record and neither marker was cleared, so the invariant is
not maintained on every remove. -/
theorem remove_savefail_marker_cex :
    (on_remove ⟨[⟨"A", "https://a"⟩], some "A", some "A"⟩ true false).envs = []
    ∧ (on_remove ⟨[⟨"A", "https://a"⟩], some "A", some "A"⟩ true false).active = some "A"
    ∧ (on_remove ⟨[⟨"A", "https://a"⟩], some "A", some "A"⟩ true false).selected = some "A" := by
  refine ⟨by decide, rfl, rfl⟩

/-- Claim C10 amended: on a confirmed remove whose save succeeds, the
selection marker is cleared, the active marker is cleared when it equals the
removed name, no surviving record bears the removed name, and the
never-names-an-absent-record invariant is preserved (assuming it held before)
— but when the save raises, the in-memory list is already filtered while both
markers are left untouched, so the invariant can be violated on that path. -/
theorem remove_marker_amended :
    ∀ (s : AppState) (name : String), s.selected = some name →
      (on_remove s true true).selected = none
      ∧ (s.active = some name → (on_remove s true true).active = none)
      ∧ (∀ e ∈ (on_remove s true true).envs, e.name ≠ name)
      ∧ (∀ m : String,
          (∀ a : String, s.active = some a → ∃ e ∈ s.envs, e.name = a) →
          (on_remove s true true).active = some m →
          ∃ e ∈ (on_remove s true true).envs, e.name = m)
      ∧ (on_remove s true false).active = s.active
      ∧ (on_remove s true false).selected = s.selected := by
  intro s name hsel
  simp only [on_remove, hsel, Bool.not_true, Bool.false_eq_true, if_false, if_true]
  refine ⟨trivial, ?_, ?_, ?_, trivial, trivial⟩
  · intro ha
    simp [ha]
  · intro e he hne
    have := (List.mem_filter.mp he).2
    simp [hne] at this
  · intro m hinv hact
    by_cases hb : (s.active == some name) = true
    · rw [if_pos hb] at hact
      exact absurd hact (by simp)
    · rw [if_neg (by simp [hb])] at hact
      obtain ⟨e, he, hn⟩ := hinv m hact
      refine ⟨e, List.mem_filter.mpr ⟨he, ?_⟩, hn⟩
      have hmn : m ≠ name := by
        intro hmn
        rw [hmn] at hact
        rw [hact] at hb
        simp at hb
      simpa [hn] using hmn

/-- Witness for C10 amended: removing the selected A (also active) with a
successful save clears both markers. -/
theorem remove_marker_amended_w :
    (on_remove ⟨[⟨"A", "https://a"⟩, ⟨"B", "https://b"⟩], some "A", some "A"⟩ true true).selected = none
    ∧ (on_remove ⟨[⟨"A", "https://a"⟩, ⟨"B", "https://b"⟩], some "A", some "A"⟩ true true).active = none :=
  ⟨(remove_marker_amended ⟨[⟨"A", "https://a"⟩, ⟨"B", "https://b"⟩], some "A", some "A"⟩ "A" rfl).1,
   (remove_marker_amended ⟨[⟨"A", "https://a"⟩, ⟨"B", "https://b"⟩], some "A", some "A"⟩ "A" rfl).2.1 rfl⟩

/-- Events the background machinery reports to the presentation layer; only
the enabled/disabled flag matters for the mutual-exclusion claim. -/
inductive Ev
  | enabled (b : Bool)
  | logLine (s : String)
deriving DecidableEq

/-- A background action body as the sequence of steps it performs: emit an
event, or raise an exception (which aborts the rest of the body). -/
inductive Step
  | emit (e : Ev)
  | raiseErr
deriving DecidableEq

/-- Execute a body: the events it emitted and whether it completed without an
exception; an exception aborts the remaining steps. -/
def execSteps : List Step → List Ev × Bool
  | [] => ([], true)
  | Step.emit e :: r =>
    let (evs, ok) := execSteps r
    (e :: evs, ok)
  | Step.raiseErr :: _ => ([], false)

/-- Embedding of MainWindow._run_bg (line 445-452): emit set_enabled(False),
run the body inside try/finally, and emit set_enabled(True) in the finally
block — also when the body raised. -/
def run_bg (body : List Step) : List Ev :=
  Ev.enabled false :: (execSteps body).1 ++ [Ev.enabled true]

/-- Claim C9: every background action dispatched through _run_bg (the source
routes connect, disconnect, status and network-refresh workers through it)
first emits enabled := false and, whatever the body does — including raising
an exception part-way, which aborts its remaining steps — the last emitted
event is enabled := true, so no execution leaves actions permanently
disabled.  The second conjunct shows the exception path: the body's steps
after the raise are discarded, yet run_bg still re-enables. -/
theorem run_bg_reenables_ok :
    (∀ body : List Step,
        (run_bg body).head? = some (Ev.enabled false)
        ∧ (run_bg body).getLast? = some (Ev.enabled true))
    ∧ (∀ (pre : List Ev) (post : List Step),
        execSteps (pre.map Step.emit ++ Step.raiseErr :: post) = (pre, false)) := by
  constructor
  · intro body
    refine ⟨rfl, ?_⟩
    show (Ev.enabled false :: ((execSteps body).1 ++ [Ev.enabled true])).getLast? = _
    rw [← List.cons_append]
    exact List.getLast?_concat _
  · intro pre post
    induction pre with
    | nil => rfl
    | cons e rest ih => simp [execSteps, ih]

end NetbirdSwitch
